import Mathlib

/-!
Shallow embedding of `pkg/cmd/auth/switch/switch.go` (`gh auth switch`).

The Go function `switchRun` resolves one (host, user) pair out of the
credential store, possibly asking the user interactively, then commits the
switch via `authCfg.SwitchUser` unless a write-guard
(`shared.AuthTokenWriteable`) vetoes it.

Modelling decisions:
  * The credential store (`config.AuthConfig`) is a `Store ε`: a list of
    known hosts plus two fetch functions.  Go functions that return
    `(value, error)` are modelled as returning `value × Option ε`, so that an
    error can be silently discarded while the accompanying value is still
    used, exactly as `knownUsers, _ := UsersForHost(hostname)` does in Go.
  * The external surfaces (prompt availability, the interactive chooser,
    the write-guard, `SwitchUser`) live in `Env ε`.
  * Every call to an external surface is recorded in an event trace
    (`List Event`), so that statements of the form "the Chooser is never
    invoked" become statements about the trace.
  * The outcome `credentialSourceOverridden src` models the Go behaviour of
    printing a diagnostic naming the overriding environment variable `src`
    on stderr and returning `cmdutil.SilentError`.
  * Go's `candidates[selected]` panics when `selected` is out of range; the
    embedding makes that a distinct outcome `chooserIndexOutOfRange`.
-/

namespace AuthSwitch

/-- Translation of the Go struct `hostUser` in switch.go. -/
structure hostUser where
  host : String
  user : String
  active : Bool
deriving DecidableEq, Repr

/-- Translation of `candidates.inactiveOptions` in switch.go: the
subsequence of candidates whose `active` flag is false, in order. -/
def inactiveOptions : List hostUser → List hostUser
  | [] => []
  | c :: rest => if !c.active then c :: inactiveOptions rest else inactiveOptions rest

/-- One call to an external surface made during `switchRun`. -/
inductive Event where
  | fetchActiveUser (host : String)
  | fetchUsersForHost (host : String)
  | choose (message defaultValue : String) (prompts : List String)
  | writeGuardCheck (host : String)
  | setActiveUser (host user : String)
deriving DecidableEq, Repr

/-- The credential store, as `switchRun` observes it.  `activeUser h`
models `authCfg.User(h)` and `usersForHost h` models
`cfg.Authentication().UsersForHost(h)`; both return a value together with an
optional error, as the Go multiple-return does. -/
structure Store (ε : Type) where
  hosts : List String
  activeUser : String → String × Option ε
  usersForHost : String → List String × Option ε

/-- The external surfaces of `switchRun`: `opts.IO.CanPrompt()`,
`opts.Prompter.Select` (message, default, options; returns an index and an
optional error), `shared.AuthTokenWriteable` (returns the override source and
a writeable flag) and `authCfg.SwitchUser`. -/
structure Env (ε : Type) where
  canPrompt : Bool
  choose : String → String → List String → Nat × Option ε
  writeGuard : String → String × Bool
  switchUser : String → String → Option ε

/-- The error results of the resolution phase of `switchRun` (everything
before the write-guard and `SwitchUser`). -/
inductive ResolveErr (ε : Type) where
  | noHostsAuthenticated
  | hostNotAuthenticated (host : String)
  | userNotAuthenticatedOnHost (user host : String)
  | noMatch
  | ambiguousNonInteractive
  | storeReadError (e : ε)
  | couldNotPrompt (e : ε)
  | chooserIndexOutOfRange
deriving DecidableEq, Repr

/-- The overall result of `switchRun`. -/
inductive Outcome (ε : Type) where
  | switched (host user : String)
  | resolveFailed (e : ResolveErr ε)
  | credentialSourceOverridden (src : String)
  | switchUserFailed (e : ε)
deriving DecidableEq, Repr

/-- Translation of the candidate-building loop in `switchRun` (step 2):
iterate the known hosts, skip hosts that do not match a set host filter,
fetch the active user and user list for each remaining host (either fetch
error aborts), and collect a `hostUser` for each user passing the user
filter, with `active := (user == hostActiveUser)`.  Returns the event trace
of the fetches together with the candidates or the aborting error. -/
def buildCandidates {ε : Type} (st : Store ε) (hostname username : String) :
    List String → List Event × Except ε (List hostUser)
  | [] => ([], .ok [])
  | host :: rest =>
    if hostname ≠ "" ∧ host ≠ hostname then
      buildCandidates st hostname username rest
    else
      match (st.activeUser host).2 with
      | some e => ([.fetchActiveUser host], .error e)
      | none =>
        match (st.usersForHost host).2 with
        | some e => ([.fetchActiveUser host, .fetchUsersForHost host], .error e)
        | none =>
          let here := ((st.usersForHost host).1.filter
              (fun u => username == "" || u == username)).map
            (fun u => { host := host, user := u,
                        active := u == (st.activeUser host).1 : hostUser })
          let b := buildCandidates st hostname username rest
          (.fetchActiveUser host :: .fetchUsersForHost host :: b.1,
            match b.2 with
            | .error e => .error e
            | .ok cs => .ok (here ++ cs))

/-- The prompt line built for one candidate:
`fmt.Sprintf("%s (%s)", c.user, c.host)` with `" - active"` appended when the
candidate is active. -/
def fmtPrompt (c : hostUser) : String :=
  c.user ++ " (" ++ c.host ++ ")" ++ (if c.active then " - active" else "")

/-- The message passed to `Prompter.Select` in switch.go. -/
def switchMessage : String := "What account do you want to switch to?"

/-- The trace of the step-1 combined-filter pre-check: when both filters are
set (and the host filter already passed the known-hosts check),
`UsersForHost(hostname)` is fetched once, its error discarded. -/
def preEvents (hostname username : String) : List Event :=
  if hostname ≠ "" ∧ username ≠ "" then [.fetchUsersForHost hostname] else []

/-- Translation of the selection chain of `switchRun` (step 3), given the
built candidate list: no candidate is an error; a single candidate wins; a
single inactive candidate wins; otherwise interactive choice is required,
failing when prompting is unavailable, and the chooser's index selects the
candidate. -/
def resolveChoice {ε : Type} (env : Env ε) (cands : List hostUser) :
    List Event × Except (ResolveErr ε) (String × String) :=
  match cands with
  | [] => ([], .error .noMatch)
  | [c] => ([], .ok (c.host, c.user))
  | _ =>
    match inactiveOptions cands with
    | [ic] => ([], .ok (ic.host, ic.user))
    | _ =>
      if !env.canPrompt then ([], .error .ambiguousNonInteractive)
      else
        let prompts := cands.map fmtPrompt
        let sel := env.choose switchMessage "" prompts
        match sel.2 with
        | some e => ([.choose switchMessage "" prompts], .error (.couldNotPrompt e))
        | none =>
          match cands[sel.1]? with
          | some c => ([.choose switchMessage "" prompts], .ok (c.host, c.user))
          | none => ([.choose switchMessage "" prompts], .error .chooserIndexOutOfRange)

/-- Translation of the resolution phase of `switchRun` (steps 1 to 3): the
pre-validation of step 1, then candidate building, then the selection
chain. -/
def resolve {ε : Type} (st : Store ε) (env : Env ε) (hostname username : String) :
    List Event × Except (ResolveErr ε) (String × String) :=
  if st.hosts = [] then ([], .error .noHostsAuthenticated)
  else if hostname ≠ "" ∧ hostname ∉ st.hosts then
    ([], .error (.hostNotAuthenticated hostname))
  else if hostname ≠ "" ∧ username ≠ "" ∧ username ∉ (st.usersForHost hostname).1 then
    (preEvents hostname username, .error (.userNotAuthenticatedOnHost username hostname))
  else
    let b := buildCandidates st hostname username st.hosts
    match b.2 with
    | .error e => (preEvents hostname username ++ b.1, .error (.storeReadError e))
    | .ok cands =>
      let ch := resolveChoice env cands
      (preEvents hostname username ++ b.1 ++ ch.1, ch.2)

/-- Translation of `switchRun` in switch.go: resolve one (host, user), then
consult the write-guard (aborting with the silent override outcome when the
credential is not writeable) and finally call `SwitchUser`. -/
def switchRun {ε : Type} (st : Store ε) (env : Env ε) (hostname username : String) :
    List Event × Outcome ε :=
  let r := resolve st env hostname username
  match r.2 with
  | .error e => (r.1, .resolveFailed e)
  | .ok (h, u) =>
    if !(env.writeGuard h).2 then
      (r.1 ++ [.writeGuardCheck h], .credentialSourceOverridden (env.writeGuard h).1)
    else
      match env.switchUser h u with
      | some e => (r.1 ++ [.writeGuardCheck h, .setActiveUser h u], .switchUserFailed e)
      | none => (r.1 ++ [.writeGuardCheck h, .setActiveUser h u], .switched h u)

/-- True exactly on chooser events. -/
def Event.isChoose : Event → Bool
  | .choose _ _ _ => true
  | _ => false

/-- True exactly on `SetActiveUser` (register) events. -/
def Event.isSetActiveUser : Event → Bool
  | .setActiveUser _ _ => true
  | _ => false

/-- True exactly on write-guard check events. -/
def Event.isWriteGuardCheck : Event → Bool
  | .writeGuardCheck _ => true
  | _ => false

/-- True exactly on store fetch events. -/
def Event.isFetch : Event → Bool
  | .fetchActiveUser _ => true
  | .fetchUsersForHost _ => true
  | _ => false

/-- The override source named by the outcome's diagnostic, when there is
one. -/
def Outcome.overrideSource {ε : Type} : Outcome ε → Option String
  | .credentialSourceOverridden src => some src
  | _ => none

/-- True when the outcome is the silent-exit error (`cmdutil.SilentError`). -/
def Outcome.silent {ε : Type} : Outcome ε → Bool
  | .credentialSourceOverridden _ => true
  | _ => false

/-! Trace lemmas: which events each phase can emit. -/

theorem buildCandidates_events_fetch {ε : Type} (st : Store ε) (hn un : String) :
    ∀ l : List String, ∀ e ∈ (buildCandidates st hn un l).1, e.isFetch = true := by
  intro l
  induction l with
  | nil => simp [buildCandidates]
  | cons host rest ih =>
    intro e he
    rw [buildCandidates] at he
    split at he
    · exact ih e he
    · split at he
      · simp at he
        subst he; rfl
      · split at he
        · simp at he
          rcases he with rfl | rfl <;> rfl
        · simp only [List.mem_cons] at he
          rcases he with rfl | rfl | h
          · rfl
          · rfl
          · exact ih e h

theorem preEvents_fetch (hn un : String) :
    ∀ e ∈ preEvents hn un, e.isFetch = true := by
  intro e he
  rw [preEvents] at he
  split at he
  · simp at he
    subst he; rfl
  · simp at he

theorem resolveChoice_trace {ε : Type} (env : Env ε) (cands : List hostUser) :
    (resolveChoice env cands).1 = [] ∨
      (resolveChoice env cands).1 = [.choose switchMessage "" (cands.map fmtPrompt)] := by
  unfold resolveChoice
  split
  · exact .inl rfl
  · exact .inl rfl
  · split
    · exact .inl rfl
    · split
      · exact .inl rfl
      · dsimp only
        split
        · exact .inr rfl
        · split
          · exact .inr rfl
          · exact .inr rfl

theorem resolveChoice_events {ε : Type} (env : Env ε) (cands : List hostUser) :
    ∀ e ∈ (resolveChoice env cands).1,
      e = .choose switchMessage "" (cands.map fmtPrompt) := by
  intro e he
  rcases resolveChoice_trace env cands with h | h <;> rw [h] at he <;> simp at he
  exact he

theorem Event.isFetch_no_choose (e : Event) (h : e.isFetch = true) :
    e.isChoose = false := by
  cases e <;> simp_all [Event.isFetch, Event.isChoose]

theorem Event.isFetch_no_setActiveUser (e : Event) (h : e.isFetch = true) :
    e.isSetActiveUser = false := by
  cases e <;> simp_all [Event.isFetch, Event.isSetActiveUser]

theorem Event.isFetch_no_writeGuardCheck (e : Event) (h : e.isFetch = true) :
    e.isWriteGuardCheck = false := by
  cases e <;> simp_all [Event.isFetch, Event.isWriteGuardCheck]

/-- Every event the resolution phase emits is a fetch or a chooser prompt:
neither the write-guard nor the register is touched before resolution
finishes. -/
theorem resolve_events {ε : Type} (st : Store ε) (env : Env ε) (hn un : String) :
    ∀ e ∈ (resolve st env hn un).1,
      e.isSetActiveUser = false ∧ e.isWriteGuardCheck = false := by
  intro e he
  rw [resolve] at he
  split at he
  · simp at he
  · split at he
    · simp at he
    · split at he
      · have := preEvents_fetch hn un e he
        exact ⟨Event.isFetch_no_setActiveUser e this,
          Event.isFetch_no_writeGuardCheck e this⟩
      · dsimp only at he
        split at he
        · simp only [List.mem_append] at he
          rcases he with h | h
          · have := preEvents_fetch hn un e h
            exact ⟨Event.isFetch_no_setActiveUser e this,
              Event.isFetch_no_writeGuardCheck e this⟩
          · have := buildCandidates_events_fetch st hn un st.hosts e h
            exact ⟨Event.isFetch_no_setActiveUser e this,
              Event.isFetch_no_writeGuardCheck e this⟩
        · simp only [List.mem_append] at he
          rcases he with (h | h) | h
          · have := preEvents_fetch hn un e h
            exact ⟨Event.isFetch_no_setActiveUser e this,
              Event.isFetch_no_writeGuardCheck e this⟩
          · have := buildCandidates_events_fetch st hn un st.hosts e h
            exact ⟨Event.isFetch_no_setActiveUser e this,
              Event.isFetch_no_writeGuardCheck e this⟩
          · have := resolveChoice_events env _ e h
            subst this
            exact ⟨rfl, rfl⟩

/-- Modelled from the spec's words for the candidate-set invariant: the
hosts in store iteration order, restricted to the host filter when set;
for each such host its users in store order, restricted to the user filter
when set; each user tagged active exactly when it equals the active user of
its host.  This definition follows the spec's description and is compared
against `buildCandidates`, which is translated from the source. -/
def specCandidates {ε : Type} (st : Store ε) (hostname username : String) :
    List hostUser :=
  (st.hosts.filter (fun h => hostname == "" || h == hostname)).flatMap
    (fun h =>
      ((st.usersForHost h).1.filter (fun u => username == "" || u == username)).map
        (fun u => { host := h, user := u, active := u == (st.activeUser h).1 }))

/-- When the candidate-building loop succeeds, it returns exactly the
candidate list described by the spec, in the spec's order. -/
theorem buildCandidates_ok_eq {ε : Type} (st : Store ε) (hn un : String) :
    ∀ (l : List String) (cands : List hostUser),
      (buildCandidates st hn un l).2 = .ok cands →
      cands = (l.filter (fun h => hn == "" || h == hn)).flatMap
        (fun h =>
          ((st.usersForHost h).1.filter (fun u => un == "" || u == un)).map
            (fun u => { host := h, user := u, active := u == (st.activeUser h).1 })) := by
  intro l
  induction l with
  | nil =>
    intro cands h
    simp [buildCandidates] at h
    simp [← h]
  | cons host rest ih =>
    intro cands h
    rw [buildCandidates] at h
    split at h
    · rename_i hskip
      have hf : (hn == "" || host == hn) = false := by
        simp only [Bool.or_eq_false_iff, beq_eq_false_iff_ne]
        exact ⟨hskip.1, fun he => hskip.2 he⟩
      rw [List.filter_cons, hf]
      exact ih cands h
    · rename_i hskip
      have hor : hn = "" ∨ host = hn := by
        by_cases h1 : hn = ""
        · exact .inl h1
        · right
          by_contra h2
          exact hskip ⟨h1, h2⟩
      have hf : (hn == "" || host == hn) = true := by
        rcases hor with h1 | h1 <;> simp [h1]
      split at h
      · simp at h
      · split at h
        · simp at h
        · dsimp only at h
          split at h
          · simp at h
          · rename_i cs hcs
            simp only [Except.ok.injEq] at h
            rw [List.filter_cons, hf, if_pos rfl, List.flatMap_cons, ← h,
              ← ih cs hcs]

/-! Shared helper lemmas for the step-1 pre-checks. -/

theorem switchRun_precheck_userNotAuthenticated {ε : Type} (st : Store ε)
    (env : Env ε) (hn un : String)
    (hhn : hn ≠ "") (hun : un ≠ "") (hmem : hn ∈ st.hosts)
    (hnu : un ∉ (st.usersForHost hn).1) :
    switchRun st env hn un =
      ([Event.fetchUsersForHost hn],
        .resolveFailed (.userNotAuthenticatedOnHost un hn)) := by
  have h0 : ¬ st.hosts = [] := by
    intro h
    rw [h] at hmem
    simp at hmem
  simp [switchRun, resolve, preEvents, h0, hhn, hun, hmem, hnu]

/-- When step 1 passes and candidate building succeeds, resolution is the
selection chain over the built candidates, its trace appended to the
pre-check and fetch traces. -/
theorem resolve_ok_candidates {ε : Type} (st : Store ε) (env : Env ε)
    (hn un : String) (cands : List hostUser)
    (h0 : ¬ st.hosts = [])
    (h2 : ¬(hn ≠ "" ∧ hn ∉ st.hosts))
    (h3 : ¬(hn ≠ "" ∧ un ≠ "" ∧ un ∉ (st.usersForHost hn).1))
    (hb : (buildCandidates st hn un st.hosts).2 = .ok cands) :
    resolve st env hn un =
      (preEvents hn un ++ (buildCandidates st hn un st.hosts).1 ++
          (resolveChoice env cands).1,
        (resolveChoice env cands).2) := by
  rw [resolve, if_neg h0, if_neg h2, if_neg h3]
  dsimp only
  rw [hb]

/-- When step 1 passes and candidate building aborts with a store error,
resolution propagates that error verbatim. -/
theorem resolve_store_error {ε : Type} (st : Store ε) (env : Env ε)
    (hn un : String) (e : ε)
    (h0 : ¬ st.hosts = [])
    (h2 : ¬(hn ≠ "" ∧ hn ∉ st.hosts))
    (h3 : ¬(hn ≠ "" ∧ un ≠ "" ∧ un ∉ (st.usersForHost hn).1))
    (hb : (buildCandidates st hn un st.hosts).2 = .error e) :
    resolve st env hn un =
      (preEvents hn un ++ (buildCandidates st hn un st.hosts).1,
        .error (.storeReadError e)) := by
  rw [resolve, if_neg h0, if_neg h2, if_neg h3]
  dsimp only
  rw [hb]

theorem all_not_choose_of_fetch {l : List Event}
    (h : ∀ e ∈ l, e.isFetch = true) :
    (l.all fun e => !e.isChoose) = true := by
  rw [List.all_eq_true]
  intro e he
  rw [Event.isFetch_no_choose e (h e he)]
  rfl

/-! Claim theorems. -/

/-- C6: step 1 pre-validates before any candidate is built: when the known
host list is empty, `switchRun` fails with the no-hosts-authenticated error;
otherwise, when the host filter is set and not among the known hosts, it
fails with the host-not-authenticated error naming that host.  In both cases
the event trace is empty, so neither the Chooser nor the active-user
register (nor any fetch) is ever invoked. -/
theorem step1_prevalidates_before_candidates {ε : Type} (st : Store ε)
    (env : Env ε) (hn un : String)
    (h : st.hosts = [] ∨ (hn ≠ "" ∧ hn ∉ st.hosts)) :
    switchRun st env hn un =
      ([], .resolveFailed (if st.hosts = [] then ResolveErr.noHostsAuthenticated
        else ResolveErr.hostNotAuthenticated hn)) := by
  rcases h with h | h
  · simp [switchRun, resolve, h]
  · by_cases h0 : st.hosts = []
    · simp [switchRun, resolve, h0]
    · rw [if_neg h0]
      simp [switchRun, resolve, h0, h.1, h.2]

/-- C7: when both filters are set and the host filter passes the known-hosts
check, the user list of the filtered host is fetched (the trace shows
exactly that fetch) and, the user filter not being among it, resolution
fails with the user-not-authenticated-on-host error naming both the user
and the host; nothing further (candidates, Chooser, write-guard, register)
happens. -/
theorem combined_filter_precheck_fails_early {ε : Type} (st : Store ε)
    (env : Env ε) (hn un : String)
    (hhn : hn ≠ "") (hun : un ≠ "") (hmem : hn ∈ st.hosts)
    (hnu : un ∉ (st.usersForHost hn).1) :
    switchRun st env hn un =
      ([Event.fetchUsersForHost hn],
        .resolveFailed (.userNotAuthenticatedOnHost un hn)) :=
  switchRun_precheck_userNotAuthenticated st env hn un hhn hun hmem hnu

/-- C10: in the step-1 combined-filter pre-check the error of the
users-for-host fetch is discarded: when the fetch reports an error alongside
a list not containing the user filter, `switchRun` reports the
user-not-authenticated-on-host error, not the store read error — unlike the
same fetch in step 2. -/
theorem precheck_discards_fetch_error {ε : Type} (st : Store ε) (env : Env ε)
    (hn un : String) (l : List String) (e : ε)
    (hhn : hn ≠ "") (hun : un ≠ "") (hmem : hn ∈ st.hosts)
    (herr : st.usersForHost hn = (l, some e)) (hnl : un ∉ l) :
    (switchRun st env hn un).2 =
        .resolveFailed (.userNotAuthenticatedOnHost un hn) ∧
      (switchRun st env hn un).2 ≠ .resolveFailed (.storeReadError e) := by
  have hnu : un ∉ (st.usersForHost hn).1 := by
    rw [herr]
    exact hnl
  have h := switchRun_precheck_userNotAuthenticated st env hn un hhn hun hmem hnu
  rw [h]
  exact ⟨rfl, by simp⟩

/-- C1: when more than one candidate is built and exactly one of them is
inactive, resolution picks that single inactive candidate and the Chooser is
never invoked (no chooser event appears in the trace).  The shortcut only
fires with at least two candidates: a lone candidate is handled by the
single-candidate rule, stated separately. -/
theorem single_inactive_shortcut {ε : Type} (st : Store ε) (env : Env ε)
    (hn un : String) (c1 c2 ic : hostUser) (rest : List hostUser)
    (h0 : ¬ st.hosts = [])
    (h2 : ¬(hn ≠ "" ∧ hn ∉ st.hosts))
    (h3 : ¬(hn ≠ "" ∧ un ≠ "" ∧ un ∉ (st.usersForHost hn).1))
    (hb : (buildCandidates st hn un st.hosts).2 = .ok (c1 :: c2 :: rest))
    (hin : inactiveOptions (c1 :: c2 :: rest) = [ic]) :
    (resolve st env hn un).2 = .ok (ic.host, ic.user) ∧
      ((resolve st env hn un).1.all fun e => !e.isChoose) = true := by
  have hch : resolveChoice env (c1 :: c2 :: rest) = ([], .ok (ic.host, ic.user)) := by
    simp [resolveChoice, hin]
  have hres := resolve_ok_candidates st env hn un (c1 :: c2 :: rest) h0 h2 h3 hb
  rw [hch] at hres
  rw [hres]
  refine ⟨rfl, ?_⟩
  simp only [List.append_nil, List.all_append, Bool.and_eq_true]
  exact ⟨all_not_choose_of_fetch (preEvents_fetch hn un),
    all_not_choose_of_fetch (buildCandidates_events_fetch st hn un st.hosts)⟩

/-- C2: a single-candidate set resolves to that candidate regardless of its
active flag, and the register is still called: the set-active-user event for
that host and user appears in the trace (also when the account is already
the active one) and the run reports success. -/
theorem single_candidate_switches {ε : Type} (st : Store ε) (env : Env ε)
    (hn un : String) (c : hostUser) (src : String)
    (h0 : ¬ st.hosts = [])
    (h2 : ¬(hn ≠ "" ∧ hn ∉ st.hosts))
    (h3 : ¬(hn ≠ "" ∧ un ≠ "" ∧ un ∉ (st.usersForHost hn).1))
    (hb : (buildCandidates st hn un st.hosts).2 = .ok [c])
    (hw : env.writeGuard c.host = (src, true))
    (hs : env.switchUser c.host c.user = none) :
    (switchRun st env hn un).2 = .switched c.host c.user ∧
      Event.setActiveUser c.host c.user ∈ (switchRun st env hn un).1 := by
  have hres := resolve_ok_candidates st env hn un [c] h0 h2 h3 hb
  have hch : resolveChoice env [c] = ([], .ok (c.host, c.user)) := rfl
  rw [hch] at hres
  constructor <;> simp [switchRun, hres, hw, hs]

theorem all_quiet_of_fetch {l : List Event}
    (h : ∀ e ∈ l, e.isFetch = true) :
    (l.all fun ev => !ev.isChoose && !ev.isWriteGuardCheck && !ev.isSetActiveUser)
      = true := by
  rw [List.all_eq_true]
  intro ev he
  have hf := h ev he
  cases ev <;> simp_all [Event.isFetch, Event.isChoose, Event.isWriteGuardCheck,
    Event.isSetActiveUser]

/-- C3: the candidate set built in step 2 equals the spec's candidate list —
so its order is the store's host iteration order then per-host user order —
and every element respects the set filters and carries the correct active
flag. -/
theorem candidate_set_invariant {ε : Type} (st : Store ε) (hn un : String)
    (cands : List hostUser)
    (hb : (buildCandidates st hn un st.hosts).2 = .ok cands) :
    cands = specCandidates st hn un ∧
      ∀ c ∈ cands,
        (hn ≠ "" → c.host = hn) ∧ (un ≠ "" → c.user = un) ∧
          c.active = (c.user == (st.activeUser c.host).1) := by
  have heq := buildCandidates_ok_eq st hn un st.hosts cands hb
  refine ⟨heq, ?_⟩
  intro c hc
  rw [heq, List.mem_flatMap] at hc
  obtain ⟨h, hh, hcm⟩ := hc
  rw [List.mem_map] at hcm
  obtain ⟨u, hu, rfl⟩ := hcm
  simp only [List.mem_filter, Bool.or_eq_true, beq_iff_eq] at hh hu
  refine ⟨?_, ?_, rfl⟩
  · intro hhn
    rcases hh.2 with h1 | h1
    · exact absurd h1 hhn
    · exact h1
  · intro hun
    rcases hu.2 with h1 | h1
    · exact absurd h1 hun
    · exact h1

/-- C5: when the write-guard reports the resolved host's credential as not
writeable, the run stops with the silent override outcome: the trace is the
resolution trace plus the write-guard check, no set-active-user event ever
occurs, the diagnostic names the override source, and the outcome is the
silent-exit error. -/
theorem writeguard_blocks_switch {ε : Type} (st : Store ε) (env : Env ε)
    (hn un hst u src : String) (evs : List Event)
    (hr : resolve st env hn un = (evs, .ok (hst, u)))
    (hw : env.writeGuard hst = (src, false)) :
    switchRun st env hn un =
        (evs ++ [.writeGuardCheck hst], .credentialSourceOverridden src) ∧
      ((switchRun st env hn un).1.all fun e => !e.isSetActiveUser) = true ∧
      (switchRun st env hn un).2.overrideSource = some src ∧
      (switchRun st env hn un).2.silent = true := by
  have h1 : switchRun st env hn un =
      (evs ++ [.writeGuardCheck hst], .credentialSourceOverridden src) := by
    simp [switchRun, hr, hw]
  refine ⟨h1, ?_, by rw [h1]; rfl, by rw [h1]; rfl⟩
  rw [h1]
  simp only [List.all_append, Bool.and_eq_true]
  constructor
  · rw [List.all_eq_true]
    intro e he
    have hm : e ∈ (resolve st env hn un).1 := by
      rw [hr]
      exact he
    rw [(resolve_events st env hn un e hm).1]
    rfl
  · rfl

/-- C8: when either step-2 fetch errors for some iterated host, the run
aborts with that store error propagated verbatim, and the trace holds no
chooser, write-guard, or set-active-user event: no candidate set is acted
on. -/
theorem step2_fetch_error_propagates {ε : Type} (st : Store ε) (env : Env ε)
    (hn un : String) (e : ε)
    (h0 : ¬ st.hosts = [])
    (h2 : ¬(hn ≠ "" ∧ hn ∉ st.hosts))
    (h3 : ¬(hn ≠ "" ∧ un ≠ "" ∧ un ∉ (st.usersForHost hn).1))
    (hb : (buildCandidates st hn un st.hosts).2 = .error e) :
    (switchRun st env hn un).2 = .resolveFailed (.storeReadError e) ∧
      ((switchRun st env hn un).1.all fun ev =>
        !ev.isChoose && !ev.isWriteGuardCheck && !ev.isSetActiveUser) = true := by
  have hres := resolve_store_error st env hn un e h0 h2 h3 hb
  have hrun : switchRun st env hn un =
      (preEvents hn un ++ (buildCandidates st hn un st.hosts).1,
        .resolveFailed (.storeReadError e)) := by
    simp [switchRun, hres]
  rw [hrun]
  refine ⟨rfl, ?_⟩
  rw [List.all_append]
  rw [all_quiet_of_fetch (preEvents_fetch hn un),
    all_quiet_of_fetch (buildCandidates_events_fetch st hn un st.hosts)]
  rfl

/-- With at least two candidates and an inactive count other than one, the
selection chain falls through to the interactive branch. -/
theorem resolveChoice_interactive {ε : Type} (env : Env ε) (c1 c2 : hostUser)
    (rest : List hostUser)
    (hlen : (inactiveOptions (c1 :: c2 :: rest)).length ≠ 1) :
    resolveChoice env (c1 :: c2 :: rest) =
      if !env.canPrompt then ([], .error .ambiguousNonInteractive)
      else
        match (env.choose switchMessage "" ((c1 :: c2 :: rest).map fmtPrompt)).2 with
        | some e =>
          ([.choose switchMessage "" ((c1 :: c2 :: rest).map fmtPrompt)],
            .error (.couldNotPrompt e))
        | none =>
          match (c1 :: c2 :: rest)[(env.choose switchMessage ""
              ((c1 :: c2 :: rest).map fmtPrompt)).1]? with
          | some c =>
            ([.choose switchMessage "" ((c1 :: c2 :: rest).map fmtPrompt)],
              .ok (c.host, c.user))
          | none =>
            ([.choose switchMessage "" ((c1 :: c2 :: rest).map fmtPrompt)],
              .error .chooserIndexOutOfRange) := by
  rcases hI : inactiveOptions (c1 :: c2 :: rest) with _ | ⟨d, _ | ⟨d2, ds⟩⟩
  · simp [resolveChoice, hI]
  · exact absurd (by rw [hI]; rfl) hlen
  · simp [resolveChoice, hI]

/-- C4: with more than one candidate and an inactive count other than one,
resolution requires interactive choice.  Without a prompt surface it fails
with the ambiguous-selection error and emits no chooser event; with one, the
chooser is invoked on exactly the formatted candidate lines (user, host,
active marker) in candidate order, and when the chooser answers index `i`
without error, resolution picks the candidate at index `i`. -/
theorem interactive_choice {ε : Type} (st : Store ε) (env : Env ε)
    (hn un : String) (c1 c2 : hostUser) (rest : List hostUser)
    (h0 : ¬ st.hosts = [])
    (h2 : ¬(hn ≠ "" ∧ hn ∉ st.hosts))
    (h3 : ¬(hn ≠ "" ∧ un ≠ "" ∧ un ∉ (st.usersForHost hn).1))
    (hb : (buildCandidates st hn un st.hosts).2 = .ok (c1 :: c2 :: rest))
    (hlen : (inactiveOptions (c1 :: c2 :: rest)).length ≠ 1) :
    (env.canPrompt = false →
      (resolve st env hn un).2 = .error .ambiguousNonInteractive ∧
        ((resolve st env hn un).1.all fun e => !e.isChoose) = true) ∧
    (env.canPrompt = true →
      Event.choose switchMessage "" ((c1 :: c2 :: rest).map fmtPrompt) ∈
          (resolve st env hn un).1 ∧
        ∀ (i : Nat) (c : hostUser),
          env.choose switchMessage "" ((c1 :: c2 :: rest).map fmtPrompt) =
            (i, none) →
          (c1 :: c2 :: rest)[i]? = some c →
          (resolve st env hn un).2 = .ok (c.host, c.user)) := by
  have hres := resolve_ok_candidates st env hn un (c1 :: c2 :: rest) h0 h2 h3 hb
  have hint := resolveChoice_interactive env c1 c2 rest hlen
  constructor
  · intro hp
    rw [hp] at hint
    rw [if_pos (by simp)] at hint
    rw [hint] at hres
    rw [hres]
    refine ⟨rfl, ?_⟩
    simp only [List.append_nil, List.all_append, Bool.and_eq_true]
    exact ⟨all_not_choose_of_fetch (preEvents_fetch hn un),
      all_not_choose_of_fetch (buildCandidates_events_fetch st hn un st.hosts)⟩
  · intro hp
    rw [hp] at hint
    rw [if_neg (by simp)] at hint
    rcases hE : env.choose switchMessage "" ((c1 :: c2 :: rest).map fmtPrompt)
      with ⟨i0, oerr⟩
    rw [hE] at hint
    cases oerr with
    | some er =>
      dsimp only at hint
      rw [hint] at hres
      rw [hres]
      refine ⟨by simp, ?_⟩
      intro i c hchoose hidx
      simp at hchoose
    | none =>
      dsimp only at hint
      cases hidx0 : (c1 :: c2 :: rest)[i0]? with
      | none =>
        rw [hidx0] at hint
        dsimp only at hint
        rw [hint] at hres
        rw [hres]
        refine ⟨by simp, ?_⟩
        intro i c hchoose hidx
        have hi : i0 = i := congrArg Prod.fst hchoose
        rw [← hi, hidx0] at hidx
        exact Option.noConfusion hidx
      | some c0 =>
        rw [hidx0] at hint
        dsimp only at hint
        rw [hint] at hres
        rw [hres]
        refine ⟨by simp, ?_⟩
        intro i c hchoose hidx
        have hi : i0 = i := congrArg Prod.fst hchoose
        rw [← hi, hidx0] at hidx
        have hc := Option.some.inj hidx
        subst hc
        rfl

/-- Candidate building only observes the store through its two fetch
functions, so observationally equal stores build the same candidates. -/
theorem buildCandidates_congr {ε : Type} (st1 st2 : Store ε) (hn un : String)
    (hA : ∀ h, st1.activeUser h = st2.activeUser h)
    (hU : ∀ h, st1.usersForHost h = st2.usersForHost h) :
    ∀ l, buildCandidates st1 hn un l = buildCandidates st2 hn un l := by
  intro l
  induction l with
  | nil => rfl
  | cons host rest ih =>
    by_cases hc : hn ≠ "" ∧ host ≠ hn
    · rw [buildCandidates, buildCandidates, if_pos hc, if_pos hc]
      exact ih
    · rw [buildCandidates, buildCandidates, if_neg hc, if_neg hc,
        hA host, hU host, ih]

/-- In the interactive configuration with a prompt surface, the chooser
event is in the selection trace. -/
theorem resolveChoice_choose_mem {ε : Type} (env : Env ε) (c1 c2 : hostUser)
    (rest : List hostUser)
    (hlen : (inactiveOptions (c1 :: c2 :: rest)).length ≠ 1)
    (hp : env.canPrompt = true) :
    Event.choose switchMessage "" ((c1 :: c2 :: rest).map fmtPrompt) ∈
      (resolveChoice env (c1 :: c2 :: rest)).1 := by
  have hint := resolveChoice_interactive env c1 c2 rest hlen
  rw [hp] at hint
  rw [if_neg (by simp)] at hint
  rw [hint]
  cases hE : (env.choose switchMessage "" ((c1 :: c2 :: rest).map fmtPrompt)).2 with
  | some er =>
    dsimp only
    exact List.mem_singleton.mpr rfl
  | none =>
    dsimp only
    cases hidx : (c1 :: c2 :: rest)[(env.choose switchMessage ""
        ((c1 :: c2 :: rest).map fmtPrompt)).1]? with
    | some c0 =>
      dsimp only
      exact List.mem_singleton.mpr rfl
    | none =>
      dsimp only
      exact List.mem_singleton.mpr rfl

/-- The selection chain only consults the chooser on traces that record a
chooser event: when none occurs, environments agreeing on prompt
availability select identically. -/
theorem resolveChoice_congr {ε : Type} (env1 env2 : Env ε)
    (cands : List hostUser)
    (hP : env1.canPrompt = env2.canPrompt)
    (hNC : ((resolveChoice env1 cands).1.all fun e => !e.isChoose) = true) :
    resolveChoice env1 cands = resolveChoice env2 cands := by
  match cands with
  | [] => rfl
  | [c] => rfl
  | c1 :: c2 :: rest =>
    by_cases hlen : (inactiveOptions (c1 :: c2 :: rest)).length = 1
    · rcases hI : inactiveOptions (c1 :: c2 :: rest) with _ | ⟨d, _ | ⟨d2, ds⟩⟩
      · rw [hI] at hlen
        simp at hlen
      · simp [resolveChoice, hI]
      · rw [hI] at hlen
        simp at hlen
    · have hint1 := resolveChoice_interactive env1 c1 c2 rest hlen
      have hint2 := resolveChoice_interactive env2 c1 c2 rest hlen
      cases hp : env1.canPrompt
      · rw [hp] at hint1
        rw [← hP, hp] at hint2
        rw [if_pos (by simp)] at hint1
        rw [if_pos (by simp)] at hint2
        rw [hint1, hint2]
      · exfalso
        have hm := resolveChoice_choose_mem env1 c1 c2 rest hlen hp
        rw [List.all_eq_true] at hNC
        have hx := hNC _ hm
        simp [Event.isChoose] at hx

/-- Resolution only observes the store through hosts and the two fetches,
and without a chooser event it does not observe the chooser either. -/
theorem resolve_congr {ε : Type} (st1 st2 : Store ε) (env1 env2 : Env ε)
    (hn un : String)
    (hH : st1.hosts = st2.hosts)
    (hA : ∀ h, st1.activeUser h = st2.activeUser h)
    (hU : ∀ h, st1.usersForHost h = st2.usersForHost h)
    (hP : env1.canPrompt = env2.canPrompt)
    (hNC : ((resolve st1 env1 hn un).1.all fun e => !e.isChoose) = true) :
    resolve st1 env1 hn un = resolve st2 env2 hn un := by
  have hBC : buildCandidates st2 hn un = buildCandidates st1 hn un := by
    funext l
    exact (buildCandidates_congr st1 st2 hn un hA hU l).symm
  unfold resolve
  rw [← hH, ← hU hn, hBC]
  by_cases hc1 : st1.hosts = []
  · simp only [if_pos hc1]
  · simp only [if_neg hc1]
    by_cases hc2 : hn ≠ "" ∧ hn ∉ st1.hosts
    · simp only [if_pos hc2]
    · simp only [if_neg hc2]
      by_cases hc3 : hn ≠ "" ∧ un ≠ "" ∧ un ∉ (st1.usersForHost hn).1
      · simp only [if_pos hc3]
      · simp only [if_neg hc3]
        cases hb : (buildCandidates st1 hn un st1.hosts).2 with
        | error e => rfl
        | ok cands =>
          dsimp only
          have hres := resolve_ok_candidates st1 env1 hn un cands hc1 hc2 hc3 hb
          rw [hres] at hNC
          simp only [List.all_append, Bool.and_eq_true] at hNC
          rw [resolveChoice_congr env1 env2 cands hP hNC.2]

/-- C9: resolution is deterministic on every path that does not reach the
Chooser: over two stores that agree observationally (same hosts, same
per-host fetch results) and two environments that agree on everything except
the chooser function, a run whose trace holds no chooser event produces the
same trace and the same outcome in both. -/
theorem deterministic_resolution {ε : Type} (st1 st2 : Store ε)
    (env1 env2 : Env ε) (hn un : String)
    (hH : st1.hosts = st2.hosts)
    (hA : ∀ h, st1.activeUser h = st2.activeUser h)
    (hU : ∀ h, st1.usersForHost h = st2.usersForHost h)
    (hP : env1.canPrompt = env2.canPrompt)
    (hW : ∀ h, env1.writeGuard h = env2.writeGuard h)
    (hS : ∀ h u, env1.switchUser h u = env2.switchUser h u)
    (hNC : ((switchRun st1 env1 hn un).1.all fun e => !e.isChoose) = true) :
    switchRun st1 env1 hn un = switchRun st2 env2 hn un := by
  have hNCr : ((resolve st1 env1 hn un).1.all fun e => !e.isChoose) = true := by
    rw [switchRun] at hNC
    rcases hr2 : (resolve st1 env1 hn un).2 with er | ⟨hst, u⟩
    · rw [hr2] at hNC
      dsimp only at hNC
      exact hNC
    · rw [hr2] at hNC
      dsimp only at hNC
      cases hwg : (env1.writeGuard hst).2
      · rw [hwg] at hNC
        simp only [Bool.not_false, if_true] at hNC
        simp only [List.all_append, Bool.and_eq_true] at hNC
        exact hNC.1
      · rw [hwg] at hNC
        simp only [Bool.not_true, Bool.false_eq_true, if_false] at hNC
        cases hsw : env1.switchUser hst u <;> rw [hsw] at hNC <;>
          dsimp only at hNC <;>
          simp only [List.all_append, Bool.and_eq_true] at hNC <;>
          exact hNC.1
  have hre := resolve_congr st1 st2 env1 env2 hn un hH hA hU hP hNCr
  rw [switchRun, switchRun, ← hre]
  rcases hr2 : (resolve st1 env1 hn un).2 with er | ⟨hst, u⟩
  · rfl
  · dsimp only
    rw [← hW hst, ← hS hst u]

/-! Concrete stores and environments used to witness the theorems. -/

/-- A store with one host and two users, the first one active. -/
def ghStore : Store String where
  hosts := ["github.com"]
  activeUser := fun _ => ("alice", none)
  usersForHost := fun _ => (["alice", "bob"], none)

/-- The same store written differently: observationally equal to
`ghStore`. -/
def ghStoreB : Store String where
  hosts := ["github.com"]
  activeUser := fun _ => ("alice", none)
  usersForHost := fun h => if h == h then (["alice", "bob"], none) else ([], none)

/-- A store whose active user matches no listed user, so every candidate is
inactive. -/
def promptStore : Store String where
  hosts := ["github.com"]
  activeUser := fun _ => ("carol", none)
  usersForHost := fun _ => (["alice", "bob"], none)

/-- A store whose active-user fetch fails. -/
def errStore : Store String where
  hosts := ["github.com"]
  activeUser := fun _ => ("", some "active user read failure")
  usersForHost := fun _ => (["alice"], none)

/-- A store whose users-for-host fetch fails while returning an empty
list. -/
def errStore2 : Store String where
  hosts := ["github.com"]
  activeUser := fun _ => ("alice", none)
  usersForHost := fun _ => ([], some "users read failure")

/-- An interactive environment whose chooser picks index 0 and whose
write-guard allows writing. -/
def sampleEnv : Env String where
  canPrompt := true
  choose := fun _ _ _ => (0, none)
  writeGuard := fun _ => ("", true)
  switchUser := fun _ _ => none

/-- Like `sampleEnv` but the chooser picks index 1. -/
def sampleEnv2 : Env String where
  canPrompt := true
  choose := fun _ _ _ => (1, none)
  writeGuard := fun _ => ("", true)
  switchUser := fun _ _ => none

/-- An environment whose write-guard reports the credential as overridden by
the GH_TOKEN environment variable. -/
def guardEnv : Env String where
  canPrompt := true
  choose := fun _ _ _ => (0, none)
  writeGuard := fun _ => ("GH_TOKEN", false)
  switchUser := fun _ _ => none

/-! Witnesses: each theorem applied at a concrete input. -/

/-- Witness for the single-inactive shortcut: two candidates, one inactive,
resolved to the inactive one without a chooser event. -/
theorem single_inactive_shortcut_witness :
    (buildCandidates ghStore "" "" ghStore.hosts).2 =
        .ok [⟨"github.com", "alice", true⟩, ⟨"github.com", "bob", false⟩] ∧
      inactiveOptions [⟨"github.com", "alice", true⟩, ⟨"github.com", "bob", false⟩] =
        [⟨"github.com", "bob", false⟩] ∧
      (resolve ghStore sampleEnv "" "").2 = .ok ("github.com", "bob") ∧
      ((resolve ghStore sampleEnv "" "").1.all fun e => !e.isChoose) = true := by
  have h := single_inactive_shortcut ghStore sampleEnv "" ""
    ⟨"github.com", "alice", true⟩ ⟨"github.com", "bob", false⟩
    ⟨"github.com", "bob", false⟩ []
    (by decide) (by decide) (by decide) rfl rfl
  exact ⟨rfl, rfl, h.1, h.2⟩

/-- Witness for the single-candidate rule: the lone candidate is the
already-active account and is still switched to. -/
theorem single_candidate_switches_witness :
    (buildCandidates ghStore "" "alice" ghStore.hosts).2 =
        .ok [⟨"github.com", "alice", true⟩] ∧
      sampleEnv.writeGuard "github.com" = ("", true) ∧
      sampleEnv.switchUser "github.com" "alice" = none ∧
      (switchRun ghStore sampleEnv "" "alice").2 = .switched "github.com" "alice" ∧
      Event.setActiveUser "github.com" "alice" ∈
        (switchRun ghStore sampleEnv "" "alice").1 := by
  have h := single_candidate_switches ghStore sampleEnv "" "alice"
    ⟨"github.com", "alice", true⟩ ""
    (by decide) (by decide) (by decide) rfl rfl rfl
  exact ⟨rfl, rfl, rfl, h.1, h.2⟩

/-- Witness for the candidate-set invariant at a concrete store. -/
theorem candidate_set_invariant_witness :
    (buildCandidates ghStore "" "" ghStore.hosts).2 =
        .ok [⟨"github.com", "alice", true⟩, ⟨"github.com", "bob", false⟩] ∧
      ([⟨"github.com", "alice", true⟩, ⟨"github.com", "bob", false⟩] : List hostUser) =
        specCandidates ghStore "" "" ∧
      ∀ c ∈ ([⟨"github.com", "alice", true⟩,
          ⟨"github.com", "bob", false⟩] : List hostUser),
        (("" : String) ≠ "" → c.host = "") ∧ (("" : String) ≠ "" → c.user = "") ∧
          c.active = (c.user == (ghStore.activeUser c.host).1) := by
  have h := candidate_set_invariant ghStore "" ""
    [⟨"github.com", "alice", true⟩, ⟨"github.com", "bob", false⟩] rfl
  exact ⟨rfl, h.1, h.2⟩

/-- Witness for the interactive-choice rule: two inactive candidates, a
prompt surface, and a chooser answering index 0. -/
theorem interactive_choice_witness :
    (buildCandidates promptStore "" "" promptStore.hosts).2 =
        .ok [⟨"github.com", "alice", false⟩, ⟨"github.com", "bob", false⟩] ∧
      (inactiveOptions [⟨"github.com", "alice", false⟩,
          ⟨"github.com", "bob", false⟩]).length ≠ 1 ∧
      Event.choose switchMessage ""
          (([⟨"github.com", "alice", false⟩,
            ⟨"github.com", "bob", false⟩] : List hostUser).map fmtPrompt) ∈
        (resolve promptStore sampleEnv "" "").1 ∧
      (resolve promptStore sampleEnv "" "").2 = .ok ("github.com", "alice") := by
  have h := interactive_choice promptStore sampleEnv "" ""
    ⟨"github.com", "alice", false⟩ ⟨"github.com", "bob", false⟩ []
    (by decide) (by decide) (by decide) rfl (by decide)
  have h2 := h.2 rfl
  exact ⟨rfl, by decide, h2.1, h2.2 0 ⟨"github.com", "alice", false⟩ rfl rfl⟩

/-- Witness for the write-guard veto: the resolved host's credential is
overridden by GH_TOKEN, so the run stops silently naming that source. -/
theorem writeguard_blocks_switch_witness :
    resolve ghStore guardEnv "" "bob" =
        ([Event.fetchActiveUser "github.com", Event.fetchUsersForHost "github.com"],
          .ok ("github.com", "bob")) ∧
      guardEnv.writeGuard "github.com" = ("GH_TOKEN", false) ∧
      switchRun ghStore guardEnv "" "bob" =
        ([Event.fetchActiveUser "github.com", Event.fetchUsersForHost "github.com"]
            ++ [Event.writeGuardCheck "github.com"],
          .credentialSourceOverridden "GH_TOKEN") ∧
      ((switchRun ghStore guardEnv "" "bob").1.all fun e => !e.isSetActiveUser)
          = true ∧
      (switchRun ghStore guardEnv "" "bob").2.overrideSource = some "GH_TOKEN" ∧
      (switchRun ghStore guardEnv "" "bob").2.silent = true := by
  have h := writeguard_blocks_switch ghStore guardEnv "" "bob" "github.com" "bob"
    "GH_TOKEN"
    [Event.fetchActiveUser "github.com", Event.fetchUsersForHost "github.com"]
    rfl rfl
  exact ⟨rfl, rfl, h.1, h.2.1, h.2.2.1, h.2.2.2⟩

/-- Witness for step-1 pre-validation: a host filter naming an unknown host
fails with the host-not-authenticated error and an empty trace. -/
theorem step1_prevalidates_witness :
    (ghStore.hosts = [] ∨
        (("gitlab.example" : String) ≠ "" ∧ "gitlab.example" ∉ ghStore.hosts)) ∧
      switchRun ghStore sampleEnv "gitlab.example" "" =
        ([], .resolveFailed (if ghStore.hosts = [] then ResolveErr.noHostsAuthenticated
          else ResolveErr.hostNotAuthenticated "gitlab.example")) := by
  refine ⟨Or.inr ⟨by decide, by decide⟩, ?_⟩
  exact step1_prevalidates_before_candidates ghStore sampleEnv "gitlab.example" ""
    (Or.inr ⟨by decide, by decide⟩)

/-- Witness for the combined-filter pre-check: both filters set, the host
known, the user not on it. -/
theorem combined_filter_precheck_witness :
    ("github.com" ∈ ghStore.hosts ∧
        "dora" ∉ (ghStore.usersForHost "github.com").1) ∧
      switchRun ghStore sampleEnv "github.com" "dora" =
        ([Event.fetchUsersForHost "github.com"],
          .resolveFailed (.userNotAuthenticatedOnHost "dora" "github.com")) := by
  refine ⟨⟨by decide, by decide⟩, ?_⟩
  exact combined_filter_precheck_fails_early ghStore sampleEnv "github.com" "dora"
    (by decide) (by decide) (by decide) (by decide)

/-- Witness for step-2 error propagation: the active-user fetch fails and
the error string is propagated verbatim. -/
theorem step2_fetch_error_witness :
    (buildCandidates errStore "" "" errStore.hosts).2 =
        .error "active user read failure" ∧
      (switchRun errStore sampleEnv "" "").2 =
        .resolveFailed (.storeReadError "active user read failure") ∧
      ((switchRun errStore sampleEnv "" "").1.all fun ev =>
        !ev.isChoose && !ev.isWriteGuardCheck && !ev.isSetActiveUser) = true := by
  have h := step2_fetch_error_propagates errStore sampleEnv "" ""
    "active user read failure" (by decide) (by decide) (by decide) rfl
  exact ⟨rfl, h.1, h.2⟩

/-- Witness for determinism away from the chooser: two observationally equal
stores and two environments with different choosers give the same run when
no chooser event occurs. -/
theorem deterministic_resolution_witness :
    ghStore.hosts = ghStoreB.hosts ∧
      ((switchRun ghStore sampleEnv "" "").1.all fun e => !e.isChoose) = true ∧
      switchRun ghStore sampleEnv "" "" = switchRun ghStoreB sampleEnv2 "" "" := by
  refine ⟨rfl, rfl, ?_⟩
  exact deterministic_resolution ghStore ghStoreB sampleEnv sampleEnv2 "" ""
    rfl (fun _ => rfl) (fun h => by simp [ghStore, ghStoreB]) rfl
    (fun _ => rfl) (fun _ _ => rfl) rfl

/-- Witness for the discarded pre-check fetch error: the fetch fails with an
error and an empty list, and the user-level error is reported instead of the
store error. -/
theorem precheck_discards_fetch_error_witness :
    errStore2.usersForHost "github.com" = ([], some "users read failure") ∧
      (switchRun errStore2 sampleEnv "github.com" "alice").2 =
        .resolveFailed (.userNotAuthenticatedOnHost "alice" "github.com") ∧
      (switchRun errStore2 sampleEnv "github.com" "alice").2 ≠
        .resolveFailed (.storeReadError "users read failure") := by
  have h := precheck_discards_fetch_error errStore2 sampleEnv "github.com" "alice"
    [] "users read failure" (by decide) (by decide) (by decide) rfl (by decide)
  exact ⟨rfl, h.1, h.2⟩

end AuthSwitch
